import Mathlib

/-!
# Verification of the deepscatter v2 builder scripts

Shallow embedding of `src/v2/scripts/csv_to_parquet.py` and
`src/v2/scripts/duckdb_to_parquet.py` (the tile post-processing function
`fix_tiles` is textually identical in both scripts, so it is modelled once).

Modelling conventions:
* The tile store on disk is a finite list of relative paths (strings such as
  `"1/0/0.feather"`); `os.path.exists` becomes list membership.
* Machine floats are modelled as rationals (`ℚ`); pandas missing values (NaN)
  are modelled as `Option` with `none` for a missing cell.
* A feather file's schema metadata is a key/value association list.  The value
  stored under the `"json"` key is kept in parsed form (`MetaVal.jsonDoc`):
  `json.dumps` is deterministic and `json.loads` is its left inverse and both
  preserve key order, so byte equality of the serialized entry coincides with
  equality of the parsed documents.  A value that does not parse as JSON is
  `MetaVal.rawStr`.
* Python `dict` semantics: assignment to an existing key replaces the value in
  place (key order preserved); assignment to a fresh key appends it at the end;
  `del` removes the key.
-/

namespace Deepscatter

/-- A JSON value as it occurs inside a tile's `json` metadata document.
`children` is always a list of strings in the scripts; other values occurring
in documents are covered by the string and number constructors. -/
inductive JVal where
  | jstr : String → JVal
  | jarr : List String → JVal
  | jnum : Int → JVal
deriving DecidableEq, Repr

/-- A parsed JSON object: an ordered association list, as a Python `dict`
(insertion ordered, unique keys). -/
abbrev Doc := List (String × JVal)

/-- A value in the feather schema-metadata map: either a string that parses as
a JSON document (kept parsed), or an opaque string that does not. -/
inductive MetaVal where
  | jsonDoc : Doc → MetaVal
  | rawStr : String → MetaVal
deriving DecidableEq, Repr

/-- The schema-metadata map of a tile file. -/
abbrev Meta := List (String × MetaVal)

/-- Look a key up in an association list (first match, like a Python dict). -/
def getVal (m : List (String × α)) (k : String) : Option α :=
  (m.find? (fun p => p.1 == k)).map (·.2)

/-- Python `d[k] = v`: replace the value at `k` in place if the key is
present, otherwise append the new binding at the end. -/
def setKey : List (String × α) → String → α → List (String × α)
  | [], k, v => [(k, v)]
  | p :: t, k, v => if p.1 == k then (k, v) :: t else p :: setKey t k v

/-- Python `del d[k]` (also a no-op when the key is absent, matching the
script's guarded `if 'children' in meta_json: del meta_json['children']`). -/
def eraseKey (m : List (String × α)) (k : String) : List (String × α) :=
  m.filter (fun p => ¬ p.1 == k)

/-- `json.dumps` with default separators, for the documents above
(string escaping is irrelevant to the claims: tile keys contain only digits
and slashes). -/
def dumpsV : JVal → String
  | .jstr s => "\"" ++ s ++ "\""
  | .jarr l => "[" ++ String.intercalate ", " (l.map (fun s => "\"" ++ s ++ "\"")) ++ "]"
  | .jnum n => toString n

/-- `json.dumps` of a document with the default separators `", "`, `": "`. -/
def dumps (d : Doc) : String :=
  "\x7b" ++ String.intercalate ", " (d.map (fun p => "\"" ++ p.1 ++ "\": " ++ dumpsV p.2)) ++ "\x7d"

/-- `f"{cz}/{cx}/{cy}"`: the key string recorded in `children`. -/
def keyStr (cz cx cy : Int) : String := s!"{cz}/{cx}/{cy}"

/-- `os.path.join(tiles_dir, str(cz), str(cx), f"{cy}.feather")` relative to
`tiles_dir`: the probe path of a candidate child. -/
def tilePath (cz cx cy : Int) : String := s!"{cz}/{cx}/{cy}.feather"

/-- The `(dx, dy)` traversal of `fix_tiles`: Python's
`for dx in [0, 1]: for dy in [0, 1]` iterates `dy` innermost. -/
def probeOrder : List (Int × Int) := [(0, 0), (0, 1), (1, 0), (1, 1)]

/-- The `children` list computed by `fix_tiles` for the tile `(z, x, y)` over
the file set `fs`: probe the four candidate children in `probeOrder` and keep
the keys of those whose file exists. -/
def childrenOf (fs : List String) (z x y : Int) : List String :=
  probeOrder.filterMap (fun p =>
    if tilePath (z + 1) (x * 2 + p.1) (y * 2 + p.2) ∈ fs then
      some (keyStr (z + 1) (x * 2 + p.1) (y * 2 + p.2))
    else none)

/-- The update `fix_tiles` applies to the parsed `json` document of one tile:
set `children` when the computed list is non-empty, otherwise remove any
pre-existing `children` key. -/
def fixDoc (d : Doc) (children : List String) : Doc :=
  if children.isEmpty then eraseKey d "children"
  else setKey d "children" (.jarr children)

/-- The `meta_json` recovered by `fix_tiles` before the update: the parsed
`json` entry when it parses, otherwise the empty document (from the
`meta_json = {}` / silent `except` in the script). -/
def parsedJson (meta : Meta) : Doc :=
  match getVal meta "json" with
  | some (.jsonDoc d) => d
  | _ => []

/-- One tile's metadata rewrite in `fix_tiles`: recover the parsed `json`
document, apply `fixDoc` with the computed children, and store the result
back under `"json"`. -/
def fixTileMeta (fs : List String) (z x y : Int) (meta : Meta) : Meta :=
  setKey meta "json" (.jsonDoc (fixDoc (parsedJson meta) (childrenOf fs z x y)))

/-! ### Association-list lemmas (Python dict semantics) -/

theorem getVal_cons (p : String × α) (t : List (String × α)) (k : String) :
    getVal (p :: t) k = if p.1 == k then some p.2 else getVal t k := by
  simp only [getVal, List.find?]
  split <;> rename_i h <;> simp [h]

theorem getVal_setKey_self (m : List (String × α)) (k : String) (v : α) :
    getVal (setKey m k v) k = some v := by
  induction m with
  | nil => simp [setKey, getVal_cons, getVal]
  | cons p t ih =>
    by_cases h : p.1 == k
    · simp [setKey, h, getVal_cons]
    · simp [setKey, h, getVal_cons, ih]

theorem setKey_idem (m : List (String × α)) (k : String) (v : α) :
    setKey (setKey m k v) k v = setKey m k v := by
  induction m with
  | nil => simp [setKey]
  | cons p t ih =>
    by_cases h : p.1 == k
    · simp [setKey, h]
    · simp [setKey, h, ih]

theorem eraseKey_idem (m : List (String × α)) (k : String) :
    eraseKey (eraseKey m k) k = eraseKey m k := by
  simp [eraseKey, List.filter_filter]

theorem parsedJson_setKey (meta : Meta) (d : Doc) :
    parsedJson (setKey meta "json" (.jsonDoc d)) = d := by
  simp [parsedJson, getVal_setKey_self]

theorem fixDoc_idem (d : Doc) (c : List String) :
    fixDoc (fixDoc d c) c = fixDoc d c := by
  by_cases h : c.isEmpty <;> simp [fixDoc, h, eraseKey_idem, setKey_idem]

theorem getVal_eraseKey_self (m : List (String × α)) (k : String) :
    getVal (eraseKey m k) k = none := by
  induction m with
  | nil => simp [eraseKey, getVal]
  | cons p t ih =>
    by_cases h : p.1 == k
    · rw [eraseKey, List.filter_cons, if_neg (by simp_all)]
      exact ih
    · rw [eraseKey, List.filter_cons, if_pos (by simp_all), getVal_cons,
        if_neg (by simp_all)]
      exact ih

/-! ### Claims about the Tile Metadata Linker -/

/-- **C1.** After the Linker rewrites a tile `(z, x, y)`, the metadata holds a
parsed `json` document whose `children` entry is exactly the computed list;
the computed list's members are exactly the keys `(z+1, 2x+dx, 2y+dy)` for
`dx, dy ∈ {0,1}` whose tile file exists in the store, formatted
`"level/column/row"`; and the `children` key is present iff that set is
non-empty. -/
theorem c1_children_exact (fs : List String) (z x y : Int) (meta : Meta) :
    ∃ d : Doc,
      getVal (fixTileMeta fs z x y meta) "json" = some (.jsonDoc d) ∧
      (∀ s : String, s ∈ childrenOf fs z x y ↔
        ∃ dx ∈ ([0, 1] : List Int), ∃ dy ∈ ([0, 1] : List Int),
          s = keyStr (z + 1) (x * 2 + dx) (y * 2 + dy) ∧
          tilePath (z + 1) (x * 2 + dx) (y * 2 + dy) ∈ fs) ∧
      (childrenOf fs z x y = [] → getVal d "children" = none) ∧
      (childrenOf fs z x y ≠ [] →
        getVal d "children" = some (.jarr (childrenOf fs z x y))) := by
  refine ⟨fixDoc (parsedJson meta) (childrenOf fs z x y), ?_, ?_, ?_, ?_⟩
  · exact getVal_setKey_self ..
  · intro s
    constructor
    · intro hs
      simp only [childrenOf, List.mem_filterMap] at hs
      obtain ⟨q, hmem, hf⟩ := hs
      split at hf
      · rename_i hin
        obtain rfl : keyStr (z + 1) (x * 2 + q.1) (y * 2 + q.2) = s :=
          Option.some.inj hf
        refine ⟨q.1, ?_, q.2, ?_, rfl, hin⟩ <;> fin_cases hmem <;> simp
      · exact absurd hf (by simp)
    · rintro ⟨dx, hdx, dy, hdy, rfl, hex⟩
      simp only [childrenOf, List.mem_filterMap]
      refine ⟨(dx, dy), ?_, by simp [hex]⟩
      fin_cases hdx <;> fin_cases hdy <;> simp [probeOrder]
  · intro hempty
    simp only [fixDoc, hempty, List.isEmpty_nil, if_true]
    exact getVal_eraseKey_self ..
  · intro hne
    have h : (childrenOf fs z x y).isEmpty = false := by
      simpa [List.isEmpty_iff] using hne
    simp only [fixDoc, h, Bool.false_eq_true, if_false]
    exact getVal_setKey_self ..

/-- **C2, counterexample.** The claim asserts the probe order `(dx, dy) =
(0,0), (1,0), (0,1), (1,1)`, so that when both the `(2x+1, 2y)` and
`(2x, 2y+1)` children exist the key of the former precedes the key of the
latter.  In the code `dy` is the inner loop, so with both files present the
`(2x, 2y+1)` key `"1/0/1"` comes first and the claimed precedence fails. -/
theorem c2_counterexample :
    childrenOf ["1/0/1.feather", "1/1/0.feather"] 0 0 0 = ["1/0/1", "1/1/0"] ∧
    "1/1/0" ∈ childrenOf ["1/0/1.feather", "1/1/0.feather"] 0 0 0 ∧
    "1/0/1" ∈ childrenOf ["1/0/1.feather", "1/1/0.feather"] 0 0 0 ∧
    ¬ (childrenOf ["1/0/1.feather", "1/1/0.feather"] 0 0 0).indexOf "1/1/0" <
        (childrenOf ["1/0/1.feather", "1/1/0.feather"] 0 0 0).indexOf "1/0/1" := by
  decide

/-- **C2, amended.** The probe order is `(dx, dy) = (0,0), (0,1), (1,0),
(1,1)` (`dy` is the inner loop), the `children` list follows that traversal
order, and whenever both the `(2x, 2y+1)` and `(2x+1, 2y)` children exist,
the key `"{z+1}/{2x}/{2y+1}"` precedes the key `"{z+1}/{2x+1}/{2y}"`. -/
theorem c2_amended (fs : List String) (z x y : Int)
    (h01 : tilePath (z + 1) (x * 2) (y * 2 + 1) ∈ fs)
    (h10 : tilePath (z + 1) (x * 2 + 1) (y * 2) ∈ fs) :
    probeOrder = [(0, 0), (0, 1), (1, 0), (1, 1)] ∧
    ∃ l₁ l₂ l₃, childrenOf fs z x y =
      l₁ ++ [keyStr (z + 1) (x * 2) (y * 2 + 1)] ++ l₂ ++
        [keyStr (z + 1) (x * 2 + 1) (y * 2)] ++ l₃ := by
  refine ⟨rfl, ?_⟩
  by_cases h00 : tilePath (z + 1) (x * 2) (y * 2) ∈ fs <;>
    by_cases h11 : tilePath (z + 1) (x * 2 + 1) (y * 2 + 1) ∈ fs
  · refine ⟨[keyStr (z + 1) (x * 2) (y * 2)], [],
      [keyStr (z + 1) (x * 2 + 1) (y * 2 + 1)], ?_⟩
    simp [childrenOf, probeOrder, h00, h01, h10, h11]
  · refine ⟨[keyStr (z + 1) (x * 2) (y * 2)], [], [], ?_⟩
    simp [childrenOf, probeOrder, h00, h01, h10, h11]
  · refine ⟨[], [], [keyStr (z + 1) (x * 2 + 1) (y * 2 + 1)], ?_⟩
    simp [childrenOf, probeOrder, h00, h01, h10, h11]
  · refine ⟨[], [], [], ?_⟩
    simp [childrenOf, probeOrder, h00, h01, h10, h11]

/-- **C2, amended, witness** at the store `{1/0/1, 1/1/0}` and tile
`(0, 0, 0)`. -/
theorem c2_amended_witness :
    probeOrder = [(0, 0), (0, 1), (1, 0), (1, 1)] ∧
    ∃ l₁ l₂ l₃, childrenOf ["1/0/1.feather", "1/1/0.feather"] 0 0 0 =
      l₁ ++ [keyStr (0 + 1) (0 * 2) (0 * 2 + 1)] ++ l₂ ++
        [keyStr (0 + 1) (0 * 2 + 1) (0 * 2)] ++ l₃ :=
  c2_amended ["1/0/1.feather", "1/1/0.feather"] 0 0 0 (by decide) (by decide)

/-- **C8.** The Linker is idempotent: rewriting a tile's metadata a second
time over the unchanged file set is a fixed point.  Since `json.dumps` is a
deterministic function of the parsed document, the serialized metadata of the
second run is byte-identical to the first run's. -/
theorem c8_linker_idempotent (fs : List String) (z x y : Int) (meta : Meta) :
    fixTileMeta fs z x y (fixTileMeta fs z x y meta) = fixTileMeta fs z x y meta := by
  simp only [fixTileMeta, parsedJson_setKey, fixDoc_idem, setKey_idem]

/-- **C10.** Every tile the Linker processes ends up with a `json` metadata
entry; in particular a leaf tile (no existing children) whose metadata had no
parseable `json` entry gets the empty document, serialized by `json.dumps` as
`"{}"`. -/
theorem c10_json_always_present (fs : List String) (z x y : Int) (meta : Meta)
    (hleaf : childrenOf fs z x y = [])
    (hnojson : getVal meta "json" = none ∨ ∃ s, getVal meta "json" = some (.rawStr s)) :
    getVal (fixTileMeta fs z x y meta) "json" = some (.jsonDoc []) ∧
    dumps [] = "\x7b\x7d" := by
  refine ⟨?_, rfl⟩
  have hd0 : parsedJson meta = [] := by
    rcases hnojson with h | ⟨s, h⟩ <;> simp [parsedJson, h]
  simp only [fixTileMeta, hd0, fixDoc, hleaf, List.isEmpty_nil, if_true, eraseKey,
    List.filter_nil]
  exact getVal_setKey_self ..

/-- **C10, witness** at the empty store and empty metadata. -/
theorem c10_json_always_present_witness :
    getVal (fixTileMeta [] 0 0 0 []) "json" = some (.jsonDoc []) ∧
    dumps [] = "\x7b\x7d" :=
  c10_json_always_present [] 0 0 0 [] (by decide) (Or.inl (by decide))

/-! ### The builder pipeline after the parquet write

`csv_to_parquet.py` lines 104–223 (and the same layout in
`duckdb_to_parquet.py`): write the parquet file, run the quadfeather
subprocess, and branch on its `returncode`.  On failure only the error
message is printed; on success `tiles/config.json` is written and then
`fix_tiles` is called.  The script never calls `sys.exit`, so the process
ends normally (exit status 0) on both branches. -/

inductive Ev where
  | writeParquet
  | runPartitioner
  | printPartitionerError
  | writeConfig
  | fixTilesRun
deriving DecidableEq, Repr

/-- The ordered trace of observable pipeline steps as a function of the
partitioner subprocess's exit status. -/
def pipelineTrace (returncode : Int) : List Ev :=
  [.writeParquet, .runPartitioner] ++
    (if returncode ≠ 0 then [.printPartitionerError]
     else [.writeConfig, .fixTilesRun])

/-- The builder's own process exit status: the script contains no `sys.exit`
and no uncaught exception on either branch of the `returncode` check, so the
interpreter always exits with status 0. -/
def builderExitCode (_returncode : Int) : Nat := 0

/-- **C6, counterexample.** With the partitioner failing (returncode 1) the
config write and the Linker are indeed skipped and the captured error text is
surfaced, but the Builder process exits with status 0, not non-zero: the
script prints the error and falls off the end without `sys.exit`. -/
theorem c6_counterexample :
    Ev.writeConfig ∉ pipelineTrace 1 ∧
    Ev.fixTilesRun ∉ pipelineTrace 1 ∧
    Ev.printPartitionerError ∈ pipelineTrace 1 ∧
    ¬ builderExitCode 1 ≠ 0 := by
  decide

/-- **C6, amended.** If the partitioner subprocess exits non-zero, the
remainder of the pipeline is skipped (no config.json write, no Linker run)
and the captured error text is surfaced, but the Builder process itself still
exits with status 0. -/
theorem c6_amended (rc : Int) (h : rc ≠ 0) :
    Ev.writeConfig ∉ pipelineTrace rc ∧
    Ev.fixTilesRun ∉ pipelineTrace rc ∧
    Ev.printPartitionerError ∈ pipelineTrace rc ∧
    builderExitCode rc = 0 := by
  simp [pipelineTrace, builderExitCode, h]

/-- **C6, amended, witness** at returncode 1. -/
theorem c6_amended_witness :
    Ev.writeConfig ∉ pipelineTrace 1 ∧
    Ev.fixTilesRun ∉ pipelineTrace 1 ∧
    Ev.printPartitionerError ∈ pipelineTrace 1 ∧
    builderExitCode 1 = 0 :=
  c6_amended 1 (by decide)

/-- **C9, counterexample.** On a successful partitioner run the trace is
parquet write, partitioner, config write, `fix_tiles`: the Config Emitter
runs *before* the Tile Metadata Linker, so config.json is not produced after
the tile metadata rewrite as claimed. -/
theorem c9_counterexample :
    pipelineTrace 0 =
      [.writeParquet, .runPartitioner, .writeConfig, .fixTilesRun] ∧
    (pipelineTrace 0).indexOf Ev.writeConfig <
      (pipelineTrace 0).indexOf Ev.fixTilesRun ∧
    ¬ (pipelineTrace 0).indexOf Ev.fixTilesRun <
        (pipelineTrace 0).indexOf Ev.writeConfig := by
  decide

/-- **C9, amended.** In every run where the partitioner succeeds, the Config
Emitter writes config.json first and the Tile Metadata Linker runs after it.
-/
theorem c9_amended (rc : Int) (h : rc = 0) :
    Ev.writeConfig ∈ pipelineTrace rc ∧
    Ev.fixTilesRun ∈ pipelineTrace rc ∧
    (pipelineTrace rc).indexOf Ev.writeConfig <
      (pipelineTrace rc).indexOf Ev.fixTilesRun := by
  subst h; decide

/-- **C9, amended, witness** at returncode 0. -/
theorem c9_amended_witness :
    Ev.writeConfig ∈ pipelineTrace 0 ∧
    Ev.fixTilesRun ∈ pipelineTrace 0 ∧
    (pipelineTrace 0).indexOf Ev.writeConfig <
      (pipelineTrace 0).indexOf Ev.fixTilesRun :=
  c9_amended 0 rfl

/-! ### Numeric columns: min/max capture and coordinate normalization

Machine floats are modelled as `ℚ`; a pandas cell is `Option ℚ` with `none`
for a missing value (NaN).  `Series.min`/`Series.max` skip missing values. -/

/-- A dataframe column with possibly missing cells. -/
abbrev Col := List (Option ℚ)

/-- The non-missing values of a column, in row order. -/
def somes (c : Col) : List ℚ := c.filterMap id

/-- `Series.min`: the minimum over non-missing values (`none` when every cell
is missing). -/
def colMin (c : Col) : Option ℚ := (somes c).min?

/-- `Series.max`: the maximum over non-missing values. -/
def colMax (c : Col) : Option ℚ := (somes c).max?

/-- A dataframe: named columns in schema order. -/
abbrev DF := List (String × Col)

/-- `csv_to_parquet.py` lines 62–68: the per-column `min`/`max` capture that
feeds the column descriptors, run on the dataframe as it is at that point. -/
def capturedStats (df : DF) : List (String × (Option ℚ × Option ℚ)) :=
  df.map (fun p => (p.1, (colMin p.2, colMax p.2)))

/-- `csv_to_parquet.py` lines 82–93: unit-normalize the x column.  When the
range is positive each cell is mapped through `(v - min) / range` (missing
cells stay missing); otherwise the scalar assignment `df['x'] = 0` makes
every row 0. -/
def unitNormXCol (c : Col) : Col :=
  let mn := (colMin c).getD 0
  let mx := (colMax c).getD 0
  if mx - mn > 0 then c.map (Option.map (fun v => (v - mn) / (mx - mn)))
  else c.map (fun _ => some 0)

/-- `csv_to_parquet.py` lines 84–99: unit-normalize and invert the y column:
`1 - (v - min) / range` when the range is positive, else every row 0. -/
def unitNormYCol (c : Col) : Col :=
  let mn := (colMin c).getD 0
  let mx := (colMax c).getD 0
  if mx - mn > 0 then c.map (Option.map (fun v => 1 - (v - mn) / (mx - mn)))
  else c.map (fun _ => some 0)

/-- `csv_to_parquet.py` lines 81–99 applied to the dataframe: rewrite the
`x` and `y` columns, leave every other column unchanged. -/
def csvNormalize (df : DF) : DF :=
  df.map (fun p => (p.1,
    if p.1 = "x" then unitNormXCol p.2
    else if p.1 = "y" then unitNormYCol p.2
    else p.2))

/-- The csv builder's capture-then-normalize sequence (lines 50–105): the
column stats are captured first, then `x`/`y` are rewritten. -/
def csvBuilderRun (df : DF) : List (String × (Option ℚ × Option ℚ)) × DF :=
  (capturedStats df, csvNormalize df)

/-- `duckdb_to_parquet.py` lines 72–76: invert the y column,
`y' = y_max - (y - y_min)`. -/
def duckInvertY (c : Col) : Col :=
  let mn := (colMin c).getD 0
  let mx := (colMax c).getD 0
  c.map (Option.map (fun v => mx - (v - mn)))

/-- `duckdb_to_parquet.py` lines 72–94: the y column is inverted first and the
per-column stats are captured afterwards, on the already-inverted dataframe. -/
def duckBuilderRun (df : DF) : List (String × (Option ℚ × Option ℚ)) × DF :=
  let df' := df.map (fun p => (p.1, if p.1 = "y" then duckInvertY p.2 else p.2))
  (capturedStats df', df')

/-! ### Helper lemmas for columns -/

theorem getVal_mapVal (df : List (String × α)) (g : String → α → β) (n : String) :
    getVal (df.map (fun p => (p.1, g p.1 p.2))) n = (getVal df n).map (g n) := by
  induction df with
  | nil => simp [getVal]
  | cons p t ih =>
    by_cases h : p.1 == n
    · have hp : p.1 = n := by simpa using h
      subst hp
      simp [getVal_cons]
    · simp [getVal_cons, h, ih]

theorem somes_map (c : Col) (f : ℚ → ℚ) :
    somes (c.map (Option.map f)) = (somes c).map f := by
  induction c with
  | nil => rfl
  | cons o t ih => cases o <;> simp_all [somes]

theorem colMin_spec (c : Col) (m : ℚ) (h : colMin c = some m) :
    m ∈ somes c ∧ ∀ v ∈ somes c, m ≤ v := by
  haveI : Std.Antisymm ((· : ℚ) ≤ ·) := ⟨fun h₁ h₂ => le_antisymm h₁ h₂⟩
  exact (List.min?_eq_some_iff (fun a => le_refl a) (fun a b => min_choice a b)
    (fun _ _ _ => le_min_iff)).mp h

theorem colMax_spec (c : Col) (M : ℚ) (h : colMax c = some M) :
    M ∈ somes c ∧ ∀ v ∈ somes c, v ≤ M := by
  haveI : Std.Antisymm ((· : ℚ) ≤ ·) := ⟨fun h₁ h₂ => le_antisymm h₁ h₂⟩
  exact (List.max?_eq_some_iff (fun a => le_refl a) (fun a b => max_choice a b)
    (fun _ _ _ => max_le_iff)).mp h

/-- **C3, counterexample.** In the csv builder the stat capture (lines 62–68)
runs *before* normalization (lines 81–99): with `x = [0, 2]` the descriptor
records `max = 2`, while the post-normalization x column is `[0, 1]` with
maximum `1`, so the recorded axis min/max do not reflect post-normalization
values. -/
theorem c3_counterexample :
    getVal (csvBuilderRun [("x", [some 0, some 2])]).1 "x" = some (some 0, some 2) ∧
    getVal (csvBuilderRun [("x", [some 0, some 2])]).2 "x" = some [some 0, some 1] ∧
    colMax [some (0 : ℚ), some 1] = some 1 ∧
    (2 : ℚ) ≠ 1 := by
  refine ⟨?_, ?_, ?_, by norm_num⟩ <;>
    norm_num [csvBuilderRun, capturedStats, csvNormalize, unitNormXCol, colMin, colMax,
      somes, getVal, List.find?, List.filterMap_cons, List.min?, List.max?, List.foldl]

/-- **C3, amended.** For every column the csv builder's recorded `min`/`max`
are the exact minimum and maximum of the column's non-missing values *as
loaded*, i.e. pre-normalization — the capture precedes the x/y rewrite — and
the duckdb builder captures its stats on the already-inverted dataframe, so
its recorded values are post-inversion. -/
theorem c3_amended (df : DF) (n : String) (c : Col) (hc : getVal df n = some c)
    (m M : ℚ) (hm : colMin c = some m) (hM : colMax c = some M) :
    getVal (csvBuilderRun df).1 n = some (some m, some M) ∧
    (m ∈ somes c ∧ ∀ v ∈ somes c, m ≤ v) ∧
    (M ∈ somes c ∧ ∀ v ∈ somes c, v ≤ M) ∧
    getVal (duckBuilderRun df).1 n =
      (getVal (duckBuilderRun df).2 n).map (fun c' => (colMin c', colMax c')) := by
  refine ⟨?_, colMin_spec c m hm, colMax_spec c M hM, ?_⟩
  · have h1 : getVal (capturedStats df) n =
        (getVal df n).map (fun v => (colMin v, colMax v)) :=
      getVal_mapVal df (fun _ v => (colMin v, colMax v)) n
    rw [csvBuilderRun] at *
    rw [h1, hc]
    simp [hm, hM]
  · show getVal (capturedStats _) n = _
    exact getVal_mapVal _ (fun _ v => (colMin v, colMax v)) n

/-- **C3, amended, witness** at the one-column dataframe `x = [0, 2]`. -/
theorem c3_amended_witness :
    getVal (csvBuilderRun [("x", [some 0, some 2])]).1 "x" = some (some 0, some 2) ∧
    ((0 : ℚ) ∈ somes [some 0, some 2] ∧ ∀ v ∈ somes [some 0, some 2], (0 : ℚ) ≤ v) ∧
    ((2 : ℚ) ∈ somes [some 0, some 2] ∧ ∀ v ∈ somes [some 0, some 2], v ≤ (2 : ℚ)) ∧
    getVal (duckBuilderRun [("x", [some 0, some 2])]).1 "x" =
      (getVal (duckBuilderRun [("x", [some 0, some 2])]).2 "x").map
        (fun c' => (colMin c', colMax c')) :=
  c3_amended [("x", [some 0, some 2])] "x" [some 0, some 2] (by rfl) 0 2
    (by norm_num [colMin, somes, List.filterMap_cons, List.min?, List.foldl])
    (by norm_num [colMax, somes, List.filterMap_cons, List.max?, List.foldl])

/-- **C5.** The unit-normalize policy: with the single column-wide min/max,
a positive range maps every non-missing cell `v` of x to `(v - min) / range`
and of y to `1 - (v - min) / range`, and all resulting values lie in
`[0, 1]`; a degenerate (non-positive) range sets every row to `0` instead of
dividing by zero. -/
theorem c5_unit_normalize (c : Col) (mn mx : ℚ)
    (hmn : colMin c = some mn) (hmx : colMax c = some mx) :
    (mx - mn > 0 →
      unitNormXCol c = c.map (Option.map (fun v => (v - mn) / (mx - mn))) ∧
      unitNormYCol c = c.map (Option.map (fun v => 1 - (v - mn) / (mx - mn))) ∧
      (∀ v ∈ somes (unitNormXCol c), 0 ≤ v ∧ v ≤ 1) ∧
      (∀ v ∈ somes (unitNormYCol c), 0 ≤ v ∧ v ≤ 1)) ∧
    (¬ mx - mn > 0 →
      unitNormXCol c = c.map (fun _ => some 0) ∧
      unitNormYCol c = c.map (fun _ => some 0)) := by
  constructor
  · intro hr
    have hx : unitNormXCol c = c.map (Option.map (fun v => (v - mn) / (mx - mn))) := by
      simp [unitNormXCol, hmn, hmx, hr]
    have hy : unitNormYCol c = c.map (Option.map (fun v => 1 - (v - mn) / (mx - mn))) := by
      simp [unitNormYCol, hmn, hmx, hr]
    refine ⟨hx, hy, ?_, ?_⟩
    · intro v hv
      rw [hx, somes_map] at hv
      obtain ⟨w, hw, rfl⟩ := List.mem_map.mp hv
      have h1 := (colMin_spec c mn hmn).2 w hw
      have h2 := (colMax_spec c mx hmx).2 w hw
      constructor
      · exact div_nonneg (by linarith) (le_of_lt hr)
      · rw [div_le_one hr]; linarith
    · intro v hv
      rw [hy, somes_map] at hv
      obtain ⟨w, hw, rfl⟩ := List.mem_map.mp hv
      have h1 := (colMin_spec c mn hmn).2 w hw
      have h2 := (colMax_spec c mx hmx).2 w hw
      have ht0 : 0 ≤ (w - mn) / (mx - mn) := div_nonneg (by linarith) (le_of_lt hr)
      have ht1 : (w - mn) / (mx - mn) ≤ 1 := by rw [div_le_one hr]; linarith
      constructor <;> linarith
  · intro hr
    constructor
    · simp [unitNormXCol, hmn, hmx, hr]
    · simp [unitNormYCol, hmn, hmx, hr]

/-- **C5, witness** at the column `[0, 2]`. -/
theorem c5_unit_normalize_witness :
    ((2 : ℚ) - 0 > 0 →
      unitNormXCol [some 0, some 2] =
        ([some 0, some 2] : Col).map (Option.map (fun v => (v - 0) / (2 - 0))) ∧
      unitNormYCol [some 0, some 2] =
        ([some 0, some 2] : Col).map (Option.map (fun v => 1 - (v - 0) / (2 - 0))) ∧
      (∀ v ∈ somes (unitNormXCol [some 0, some 2]), 0 ≤ v ∧ v ≤ 1) ∧
      (∀ v ∈ somes (unitNormYCol [some 0, some 2]), 0 ≤ v ∧ v ≤ 1)) ∧
    (¬ (2 : ℚ) - 0 > 0 →
      unitNormXCol [some 0, some 2] = ([some 0, some 2] : Col).map (fun _ => some 0) ∧
      unitNormYCol [some 0, some 2] = ([some 0, some 2] : Col).map (fun _ => some 0)) :=
  c5_unit_normalize [some 0, some 2] 0 2
    (by norm_num [colMin, somes, List.filterMap_cons, List.min?, List.foldl])
    (by norm_num [colMax, somes, List.filterMap_cons, List.max?, List.foldl])

/-! ### Categorical columns

A categorical cell is a value (stringified by Python `str`) or a missing cell
(NaN, whose `str` is `"nan"`).  pandas `Series.unique()` returns the distinct
values in order of first appearance and does **not** drop NaN: a missing
value appears among the uniques. -/

/-- A cell of a categorical column. -/
inductive Cell where
  | val : String → Cell
  | missing
deriving DecidableEq, Repr

/-- Python `str` of a cell (`str(float('nan')) == 'nan'`). -/
def cellStr : Cell → String
  | .val s => s
  | .missing => "nan"

/-- One step of first-occurrence deduplication. -/
def insertDistinct (acc : List Cell) (c : Cell) : List Cell :=
  if c ∈ acc then acc else acc ++ [c]

/-- pandas `Series.unique()`: distinct cells in order of first appearance,
missing cells included. -/
def uniqueVals (col : List Cell) : List Cell :=
  col.foldl insertDistinct []

/-- The categorical part of a column descriptor. -/
structure CatDescriptor where
  categories : Option (List String)
  num_categories : Nat
deriving DecidableEq, Repr

/-- `csv_to_parquet.py` lines 71–75 (same in `duckdb_to_parquet.py` 90–94):
`unique_vals = df[col].unique()`; store `sorted([str(v) for v in unique_vals])`
as `categories` only when there are at most 1000 uniques; always store
`num_categories = len(unique_vals)`. -/
def catDescriptor (col : List Cell) : CatDescriptor :=
  { categories :=
      if (uniqueVals col).length ≤ 1000 then
        some (List.mergeSort ((uniqueVals col).map cellStr))
      else none
    num_categories := (uniqueVals col).length }

/-- Modelled from the claim's own words, for comparison with the code: the
set of distinct values with missing values excluded. -/
def specDistinctNonMissing (col : List Cell) : List Cell :=
  uniqueVals (col.filter (fun c => !(c == Cell.missing)))

theorem mem_foldl_insertDistinct (l acc : List Cell) (x : Cell) :
    x ∈ l.foldl insertDistinct acc ↔ x ∈ acc ∨ x ∈ l := by
  induction l generalizing acc with
  | nil => simp
  | cons c t ih =>
    simp only [List.foldl_cons]
    by_cases h : c ∈ acc
    · rw [insertDistinct, if_pos h, ih]
      constructor
      · rintro (hx | hx)
        · exact Or.inl hx
        · exact Or.inr (List.mem_cons_of_mem _ hx)
      · rintro (hx | hx)
        · exact Or.inl hx
        · rcases List.mem_cons.mp hx with rfl | hx
          · exact Or.inl h
          · exact Or.inr hx
    · rw [insertDistinct, if_neg h, ih]
      simp only [List.mem_append, List.mem_singleton, List.mem_cons]
      tauto

theorem nodup_foldl_insertDistinct (l : List Cell) (acc : List Cell)
    (hacc : acc.Nodup) : (l.foldl insertDistinct acc).Nodup := by
  induction l generalizing acc with
  | nil => simpa
  | cons c t ih =>
    simp only [List.foldl_cons]
    by_cases h : c ∈ acc
    · rw [insertDistinct, if_pos h]
      exact ih _ hacc
    · rw [insertDistinct, if_neg h]
      refine ih _ ?_
      simp [List.nodup_append, hacc, h]

/-- **C4, counterexample.** On the column `[NaN, "a"]` the code's
`unique()` keeps the missing value: `num_categories` is 2, not the claimed
cardinality 1 of the missing-excluded distinct set, and `categories` contains
the stringified missing value `"nan"`. -/
theorem c4_counterexample :
    (catDescriptor [Cell.missing, Cell.val "a"]).num_categories = 2 ∧
    (specDistinctNonMissing [Cell.missing, Cell.val "a"]).length = 1 ∧
    (2 : Nat) ≠ 1 ∧
    (catDescriptor [Cell.missing, Cell.val "a"]).categories = some ["a", "nan"] := by
  refine ⟨by decide, by decide, by decide, ?_⟩
  simp only [catDescriptor]
  rw [if_pos (by decide)]
  have h : (uniqueVals [Cell.missing, Cell.val "a"]).map cellStr = ["nan", "a"] := by
    decide
  rw [h]
  simp [List.mergeSort, List.merge]
  decide

/-- **C4, amended.** The descriptor is computed from the distinct values with
missing values *included* (a missing cell counts as one category, stringified
`"nan"`): `num_categories` is always the number of distinct cells of the
column; when that number is at most 1000, `categories` holds their string
forms sorted ascending lexicographically, with length `num_categories`;
beyond 1000 distinct cells `categories` is absent. -/
theorem c4_amended (col : List Cell) :
    ((catDescriptor col).num_categories = (uniqueVals col).length ∧
      (uniqueVals col).Nodup ∧ (∀ c, c ∈ uniqueVals col ↔ c ∈ col)) ∧
    ((uniqueVals col).length ≤ 1000 →
      ∃ l, (catDescriptor col).categories = some l ∧
        l.Sorted (· ≤ ·) ∧
        l.length = (catDescriptor col).num_categories ∧
        (∀ s, s ∈ l ↔ s ∈ (uniqueVals col).map cellStr)) ∧
    (¬ (uniqueVals col).length ≤ 1000 → (catDescriptor col).categories = none) := by
  refine ⟨⟨rfl, ?_, ?_⟩, ?_, ?_⟩
  · exact nodup_foldl_insertDistinct col [] List.nodup_nil
  · intro c
    rw [uniqueVals, mem_foldl_insertDistinct]
    simp
  · intro h
    refine ⟨List.mergeSort ((uniqueVals col).map cellStr) (fun a b => decide (a ≤ b)),
      ?_, ?_, ?_, ?_⟩
    · simp [catDescriptor, h]
    · exact List.sorted_mergeSort' _
    · show _ = (catDescriptor col).num_categories
      rw [(List.mergeSort_perm _ _).length_eq, catDescriptor, List.length_map]
    · intro s
      exact (List.mergeSort_perm _ _).mem_iff
  · intro h
    simp [catDescriptor, h]

/-! ### Axis-column designation and schema inference (csv builder)

`csv_to_parquet.py` lines 32–36: `df.rename(columns={args.x: 'x', args.y: 'y'})`
followed by `pa.Schema.from_pandas(df)`.  pandas `rename` with a mapping
silently ignores labels that are absent (default `errors='ignore'`), and when
`args.x == args.y` the dict collapses so only the `'y'` mapping survives;
`Schema.from_pandas` raises nothing for a loaded dataframe.  The run fails
only later, at lines 82–85, where `df['x']` / `df['y']` raise `KeyError` when
the renamed table has no such column.  No `SchemaError` exists anywhere in
the scripts. -/

/-- The column labels after `df.rename(columns={xsrc: 'x', ysrc: 'y'})`. -/
def renameCols (cols : List String) (xsrc ysrc : String) : List String :=
  cols.map (fun c => if c = ysrc then "y" else if c = xsrc then "x" else c)

/-- Load + rename + `Schema.from_pandas` (lines 24–36): this stage always
succeeds and never raises; its result is the renamed column list. -/
def csvSchemaStage (cols : List String) (xsrc ysrc : String) :
    Except String (List String) :=
  .ok (renameCols cols xsrc ysrc)

/-- The first axis accesses after schema generation (lines 82–85):
`df['x'].min()` then `df['y'].min()` raise `KeyError` when the column is
absent from the renamed table. -/
def axisAccessStage (cols : List String) : Except String Unit :=
  if "x" ∈ cols then
    if "y" ∈ cols then .ok ()
    else .error "KeyError: y"
  else .error "KeyError: x"

/-- **C7, counterexample.** With a table whose columns are literally
`["x", "y"]` and designated source columns `"foo"`, `"bar"` that are absent
from it, the schema-inference stage succeeds (rename silently ignores the
absent labels) and the whole run proceeds with no failure at all — the
claimed `SchemaError` on a missing designated column never happens. -/
theorem c7_counterexample :
    csvSchemaStage ["x", "y"] "foo" "bar" = .ok ["x", "y"] ∧
    axisAccessStage (renameCols ["x", "y"] "foo" "bar") = .ok () ∧
    "foo" ∉ ["x", "y"] ∧ "bar" ∉ ["x", "y"] :=
  ⟨rfl, rfl, by decide, by decide⟩

/-- **C7, amended.** The schema-inference stage itself never fails — pandas
`rename` ignores absent labels and no `SchemaError` exists; instead the run
fails later, with a `KeyError` at the coordinate-normalization step, exactly
when the renamed table lacks an `x` (or `y`) column; and every table that
contains both designated columns (designated distinctly) passes that access
unscathed. -/
theorem c7_amended (cols : List String) (xsrc ysrc : String) :
    (∃ cols', csvSchemaStage cols xsrc ysrc = .ok cols') ∧
    (axisAccessStage (renameCols cols xsrc ysrc) = .ok () ↔
      "x" ∈ renameCols cols xsrc ysrc ∧ "y" ∈ renameCols cols xsrc ysrc) ∧
    (xsrc ≠ ysrc → xsrc ∈ cols → ysrc ∈ cols →
      axisAccessStage (renameCols cols xsrc ysrc) = .ok ()) := by
  refine ⟨⟨renameCols cols xsrc ysrc, rfl⟩, ?_, ?_⟩
  · unfold axisAccessStage
    split
    · split
      · rename_i h1 h2
        simp [h1, h2]
      · rename_i h1 h2
        simp [h1, h2]
    · rename_i h1
      simp [h1]
  · intro hne hx hy
    have hxm : "x" ∈ renameCols cols xsrc ysrc := by
      rw [renameCols, List.mem_map]
      exact ⟨xsrc, hx, by simp [hne]⟩
    have hym : "y" ∈ renameCols cols xsrc ysrc := by
      rw [renameCols, List.mem_map]
      exact ⟨ysrc, hy, by simp⟩
    simp [axisAccessStage, hxm, hym]

end Deepscatter
